import Mathlib

/-!
A verification development for the C-language front-end of this repository:
the recursive-descent parser in `src/parser.cpp` and the line/column cache of
`src/source_manager.cpp`.

The token stream is modelled as a `List Token`; a `TokenIterator` is the index
of a token in that list, and the end iterator is the length of the list (every
rule of the source receives the global `end`, never a restricted one, so the
list length is a faithful model of `tokens.end()`).  Trees, parser states and
the state-merging algebra (`add_error`, `add_node`, `add_state`,
`giveup_to_expected`) are translated function by function from
`src/parser.cpp`.  Combinators that loop (`parser_left_binary_operator`,
`parser_list_of`, the compilation-unit loop, the source-line cache) take a
fuel argument bounding the number of iterations; running out of fuel — or, for
the line cache, stepping onto an invalid iterator range — yields `none`, which
models a run of the C++ code that does not terminate normally.
-/

namespace CComp

/-- Token kinds, from the lexer interface consumed by `src/parser.cpp`
(`TokenType` in `lexer.hpp`); only the kinds the parser code under
verification inspects are listed. -/
inductive TokenType where
  | Identifier
  | IntegerConstant
  | OctIntegerConstant
  | HexIntegerConstant
  | FloatConstant
  | CharConstant
  | StringConstant
  | EncodingPrefix
  | LeftParen
  | RightParen
  | LeftBrace
  | RightBrace
  | LeftBracket
  | RightBracket
  | Comma
  | Semicolon
  | Colon
  | QuestionMark
  | Ellipsis
  | Dot
  | RightArrow
  | Increment
  | Decrement
  | Plus
  | Minus
  | Times
  | Assign
  | TimesAssign
  | DivideAssign
  | ModuloAssign
  | PlusAssign
  | MinusAssign
  | BitwiseLeftShiftAssign
  | BitwiseRightShiftAssign
  | BitwiseAndAssign
  | BitwiseXorAssign
  | BitwiseOrAssign
  | IntType
  | While
  | Eof
  deriving DecidableEq, Repr

/-- One lexed token: a kind tag and its source text.  In the source the
second field is a `SourceRange` into the source buffer; the parser only ever
turns it into text via `string_ref(it->data)`, so it is modelled as the
text itself. -/
structure Token where
  type : TokenType
  data : String
  deriving DecidableEq, Repr

/-- `TokenStream::const_iterator`, modelled as an index into the token list;
the end iterator is the list length. -/
abbrev TokenIterator := Nat

/-- Dereference an iterator (`*it` / `it->`).  Every dereference in the
source is guarded by `it != end`, so the default is never reached on the
guarded paths. -/
def tokenAt (toks : List Token) (i : TokenIterator) : Token :=
  toks.getD i ⟨TokenType.Eof, ""⟩

/-- `string_ref(it->data)`: the token's source text. -/
def string_ref (t : Token) : String := t.data

/-- `NodeType` from `parser.hpp`, with the full constructor list taken from
`to_string(NodeType)` at the end of `src/parser.cpp`. -/
inductive NodeType where
  | PrimaryExpression
  | GenericSelection
  | GenericAssocList
  | GenericAssociation
  | PostfixExpression
  | ArgumentExpressionList
  | UnaryExpression
  | CastExpression
  | MultiplicativeExpression
  | AdditiveExpression
  | ShiftExpression
  | RelationalExpression
  | EqualityExpression
  | AndExpression
  | ExclusiveOrExpression
  | InclusiveOrExpression
  | LogicalAndExpression
  | LogicalOrExpression
  | ConditionalExpression
  | AssignmentExpression
  | Expression
  | ConstantExpression
  | Declaration
  | DeclarationSpecifiers
  | DeclarationSpecifier
  | InitDeclaratorList
  | InitDeclarator
  | StorageClassSpecifier
  | TypeSpecifier
  | StructOrUnionSpecifier
  | StructOrUnion
  | StructDeclarationList
  | StructDeclaration
  | SpecifierQualifierList
  | StructDeclaratorList
  | StructDeclarator
  | EnumSpecifier
  | EnumeratorList
  | Enumerator
  | AtomicTypeSpecifier
  | TypeQualifier
  | FunctionSpecifier
  | AlignmentSpecifier
  | Declarator
  | DirectDeclarator
  | NestedParenthesesBlock
  | Pointer
  | TypeQualifierList
  | ParameterTypeList
  | ParameterList
  | ParameterDeclaration
  | IdentifierList
  | TypeName
  | AbstractDeclarator
  | DirectAbstractDeclarator
  | TypedefName
  | Initializer
  | InitializerList
  | Designation
  | DesignatorList
  | Designator
  | StaticAssertDeclaration
  | Statement
  | LabeledStatement
  | CompoundStatement
  | BlockItemList
  | BlockItem
  | ExpressionStatement
  | SelectionStatement
  | IterationStatement
  | JumpStatement
  | CompilationUnit
  | TranslationUnit
  | ExternalDeclaration
  | FunctionDefinition
  | DeclarationList
  | Identifier
  | Constant
  | IntegerConstant
  | FloatingConstant
  | EnumerationConstant
  | CharacterConstant
  | EncodingPrefix
  | StringLiteral
  | StringLiteralList
  | AsmBlock
  | CompoundLiteral
  | ArraySubscripting
  | FunctionCall
  | MemberAccess
  | PointerMemberAccess
  | PostfixIncrement
  | PostfixDecrement
  | PointerDeclarator
  | ArrayDeclarator
  | ArrayStaticDeclarator
  | ArrayVLADeclarator
  | FunctionDeclarator
  | VariadicParameter
  | Nothing
  | None
  deriving DecidableEq, Repr

/-- The syntax tree of `parser.hpp`: a node type, an optional token (text +
location), an annotation slot (modelled as a flag: `has_annotation` only asks
for presence), and the ordered child list. -/
inductive SyntaxTree where
  | mk : NodeType → Option Token → Bool → List SyntaxTree → SyntaxTree

/-- `SyntaxTree::type()`. -/
def SyntaxTree.type : SyntaxTree → NodeType
  | .mk ty _ _ _ => ty

/-- The node's token (empty when built from the type-only constructor). -/
def SyntaxTree.token : SyntaxTree → Option Token
  | .mk _ tk _ _ => tk

/-- The annotation-present flag. -/
def SyntaxTree.ann : SyntaxTree → Bool
  | .mk _ _ a _ => a

/-- `SyntaxTree::child_count()`'s underlying child list. -/
def SyntaxTree.children : SyntaxTree → List SyntaxTree
  | .mk _ _ _ cs => cs

/-- `SyntaxTree::has_text()`: true iff a token is attached. -/
def SyntaxTree.has_text (t : SyntaxTree) : Bool := t.token.isSome

/-- `SyntaxTree::has_annotation()`. -/
def SyntaxTree.has_annotation (t : SyntaxTree) : Bool := t.ann

/-- `SyntaxTree::child_count()`. -/
def SyntaxTree.child_count (t : SyntaxTree) : Nat := t.children.length

/-- `SyntaxTree::add_child(n)`: append one owned child. -/
def SyntaxTree.add_child (t n : SyntaxTree) : SyntaxTree :=
  match t with
  | .mk ty tk a cs => .mk ty tk a (cs ++ [n])

/-- `SyntaxTree::take_children(n)`: move all of `n`'s children onto `t`
(`n` itself is discarded). -/
def SyntaxTree.take_children (t n : SyntaxTree) : SyntaxTree :=
  match t with
  | .mk ty tk a cs => .mk ty tk a (cs ++ n.children)

/-- `SyntaxTree::pop_child()`: remove and return the last child. -/
def SyntaxTree.pop_child (t : SyntaxTree) : Option SyntaxTree :=
  t.children.getLast?

/-- `SyntaxTree(type)` — node with a type and no token. -/
def SyntaxTree.node (ty : NodeType) : SyntaxTree := .mk ty none false []

/-- `SyntaxTree(type, token)` — leaf carrying a token. -/
def SyntaxTree.leaf (ty : NodeType) (tk : Token) : SyntaxTree :=
  .mk ty (some tk) false []

/-- `SyntaxTree()` — the default-constructed accumulator node used by the
repetition combinators; its type is the `None` sentinel, so merging it into a
parent elides it and promotes its children. -/
def SyntaxTree.empty : SyntaxTree := .mk NodeType.None none false []

/-- `ParserStatus` from `src/parser.cpp`. -/
inductive ParserStatus where
  | Error
  | ErrorNote
  | GiveUp
  deriving DecidableEq, Repr

/-- `ParserError`: a status, the iterator where it happened, and the
message. -/
structure ParserError where
  status : ParserStatus
  where_ : TokenIterator
  error : String
  deriving DecidableEq, Repr

/-- `ParserState = variant<ParserFailure, ParserSuccess>`; a success owns an
optional tree (`ParserSuccess(nullptr)` is `success none`). -/
inductive ParserState where
  | success : Option SyntaxTree → ParserState
  | failure : List ParserError → ParserState

/-- `ParserResult`: the iterator the rule stopped at, plus its state. -/
structure ParserResult where
  next_token : TokenIterator
  state : ParserState

/-- A grammar rule `(ParserContext&, begin, end) → ParserResult`.  The
context reference and the end iterator are implicit in the token list. -/
abbrev ParserRule := List Token → TokenIterator → ParserResult

/-- `make_error(status, where, msg)`: a failure state holding one error. -/
def make_error (st : ParserStatus) (w : TokenIterator) (msg : String) : ParserState :=
  .failure [⟨st, w, msg⟩]

/-- `add_error(state, error)` (single-error overload): replace a success by a
one-error failure, append to a failure. -/
def add_error (state : ParserState) (e : ParserError) : ParserState :=
  match state with
  | .success _ => .failure [e]
  | .failure es => .failure (es ++ [e])

/-- `add_error(state, errors)` (sequence overload): append every error. -/
def add_error_list (state : ParserState) (es : List ParserError) : ParserState :=
  es.foldl add_error state

/-- `add_error(state, other)` (state overload): append any existing error of
`other` into `state`. -/
def add_error_state (state other : ParserState) : ParserState :=
  match other with
  | .failure es => add_error_list state es
  | .success _ => state

/-- `is_giveup(state)`: a failure whose every entry has status `GiveUp`. -/
def is_giveup (state : ParserState) : Bool :=
  match state with
  | .failure es => es.all (fun e => e.status = ParserStatus.GiveUp)
  | .success _ => false

/-- Modelled from the spec: `to_string(TokenType)` lives in the lexer, whose
source is not part of this repository slice.  The spec's §4.4 and §8 examples
fix the punctuator spellings the parser's messages use ("expected ')'",
"to match this '('"); keyword and literal kinds print as their class name. -/
def token_type_to_string : TokenType → String
  | .Identifier => "identifier"
  | .IntegerConstant => "integer constant"
  | .OctIntegerConstant => "octal integer constant"
  | .HexIntegerConstant => "hexadecimal integer constant"
  | .FloatConstant => "float constant"
  | .CharConstant => "character constant"
  | .StringConstant => "string constant"
  | .EncodingPrefix => "encoding prefix"
  | .LeftParen => "("
  | .RightParen => ")"
  | .LeftBrace => "\x7b"
  | .RightBrace => "\x7d"
  | .LeftBracket => "["
  | .RightBracket => "]"
  | .Comma => ","
  | .Semicolon => ";"
  | .Colon => ":"
  | .QuestionMark => "?"
  | .Ellipsis => "..."
  | .Dot => "."
  | .RightArrow => "->"
  | .Increment => "++"
  | .Decrement => "--"
  | .Plus => "+"
  | .Minus => "-"
  | .Times => "*"
  | .Assign => "="
  | .TimesAssign => "*="
  | .DivideAssign => "/="
  | .ModuloAssign => "%="
  | .PlusAssign => "+="
  | .MinusAssign => "-="
  | .BitwiseLeftShiftAssign => "<<="
  | .BitwiseRightShiftAssign => ">>="
  | .BitwiseAndAssign => "&="
  | .BitwiseXorAssign => "^="
  | .BitwiseOrAssign => "|="
  | .IntType => "int"
  | .While => "while"
  | .Eof => "end of file"

/-- `giveup_to_expected(state, what)`: rewrite every `GiveUp` entry as an
`Error` "expected <what>", followed, when the entry carried a non-empty hint,
by an `ErrorNote` "<hint> instead of this '<token kind>'" (the kind is read
through the entry's iterator, hence the token list argument). -/
def giveup_to_expected (toks : List Token) (state : ParserState)
    (what : String) : ParserState :=
  match state with
  | .success t => .success t
  | .failure es =>
    es.foldl (fun ns e =>
      if e.status = ParserStatus.GiveUp then
        let ns := add_error ns ⟨ParserStatus.Error, e.where_, "expected " ++ what⟩
        if e.error ≠ "" then
          add_error ns ⟨ParserStatus.ErrorNote, e.where_,
            e.error ++ " instead of this '" ++
              token_type_to_string (tokenAt toks e.where_).type ++ "'"⟩
        else ns
      else add_error ns e) (.success none)

/-- `giveup_to_expected(state)` (no `what`): promote every `GiveUp` entry to
an `Error` "expected <its own message>". -/
def giveup_to_expected_default (state : ParserState) : ParserState :=
  match state with
  | .success t => .success t
  | .failure es =>
    es.foldl (fun ns e =>
      if e.status = ParserStatus.GiveUp then
        add_error ns ⟨ParserStatus.Error, e.where_, "expected " ++ e.error⟩
      else add_error ns e) (.success none)

/-- The `switch` inside `should_elide`: list and higher-ground node kinds
that are never elided. -/
def elide_preserved : NodeType → Bool
  | .GenericAssocList => false
  | .ArgumentExpressionList => false
  | .Declaration => false
  | .DeclarationSpecifiers => false
  | .InitDeclaratorList => false
  | .StructDeclarationList => false
  | .SpecifierQualifierList => false
  | .StructDeclaratorList => false
  | .EnumeratorList => false
  | .FunctionSpecifier => false
  | .AlignmentSpecifier => false
  | .TypeQualifierList => false
  | .ParameterTypeList => false
  | .ParameterList => false
  | .IdentifierList => false
  | .InitializerList => false
  | .DesignatorList => false
  | .CompilationUnit => false
  | .TranslationUnit => false
  | .FunctionDeclarator => false
  | _ => true

/-- `should_elide(node)`: `None` nodes always; annotated nodes never; the
kinds of the `switch` never; otherwise nodes without text and with exactly
one child. -/
def should_elide (node : SyntaxTree) : Bool :=
  if node.type = NodeType.None then true
  else if node.has_annotation then false
  else if elide_preserved node.type = false then false
  else if node.has_text = false ∧ node.child_count = 1 then true
  else false

/-- `add_node(state, node)`: on a success, install the node as the tree when
there is none yet; elide it (absorb its children) when it is a `None` node or
`should_elide` holds; otherwise append it as a child.  A failure state is
unchanged. -/
def add_node (state : ParserState) (node : SyntaxTree) : ParserState :=
  match state with
  | .success none => .success (some node)
  | .success (some tree) =>
    if node.type = NodeType.None ∨ should_elide node then
      .success (some (tree.take_children node))
    else
      .success (some (tree.add_child node))
  | .failure es => .failure es

/-- `add_state(state, other)`: fold a child result into the parent's state —
a success contributes its tree via `add_node`, a failure appends its
errors. -/
def add_state (state other : ParserState) : ParserState :=
  match other with
  | .success (some t) => add_node state t
  | .success none => state
  | .failure _ => add_error_state state other

end CComp

namespace CComp

/-- `to_string(NodeType)` from the end of `src/parser.cpp` (including its
misspelling of "relational"). -/
def node_type_to_string : NodeType → String
  | .PrimaryExpression => "primary expression"
  | .GenericSelection => "generic selection"
  | .GenericAssocList => "generic assoc list"
  | .GenericAssociation => "generic association"
  | .PostfixExpression => "postfix expression"
  | .ArgumentExpressionList => "argument expression list"
  | .UnaryExpression => "unary expression"
  | .CastExpression => "cast expression"
  | .MultiplicativeExpression => "multiplicative expression"
  | .AdditiveExpression => "additive expression"
  | .ShiftExpression => "shift expression"
  | .RelationalExpression => "relatioal expression"
  | .EqualityExpression => "equality expression"
  | .AndExpression => "and expression"
  | .ExclusiveOrExpression => "exclusive or expression"
  | .InclusiveOrExpression => "inclusive or expression"
  | .LogicalAndExpression => "logical and expression"
  | .LogicalOrExpression => "logical or expression"
  | .ConditionalExpression => "conditional expression"
  | .AssignmentExpression => "assignment expression"
  | .Expression => "expression"
  | .ConstantExpression => "constant expression"
  | .Declaration => "declaration"
  | .DeclarationSpecifiers => "declaration specifiers"
  | .DeclarationSpecifier => "declaration specifier"
  | .InitDeclaratorList => "init declarator list"
  | .InitDeclarator => "init declarator"
  | .StorageClassSpecifier => "storage class specifier"
  | .TypeSpecifier => "type specifier"
  | .StructOrUnionSpecifier => "struct or union specifier"
  | .StructOrUnion => "struct or union"
  | .StructDeclarationList => "struct declaration list"
  | .StructDeclaration => "struct declaration"
  | .SpecifierQualifierList => "specifier qualifier list"
  | .StructDeclaratorList => "struct declarator list"
  | .StructDeclarator => "struct declarator"
  | .EnumSpecifier => "enum specifier"
  | .EnumeratorList => "enumerator list"
  | .Enumerator => "enumerator"
  | .AtomicTypeSpecifier => "atomic type specifier"
  | .TypeQualifier => "type qualifier"
  | .FunctionSpecifier => "function specifier"
  | .AlignmentSpecifier => "alignment specifier"
  | .Declarator => "declarator"
  | .DirectDeclarator => "direct declarator"
  | .NestedParenthesesBlock => "nested parentheses block"
  | .Pointer => "pointer"
  | .TypeQualifierList => "type qualifier list"
  | .ParameterTypeList => "parameter type list"
  | .ParameterList => "parameter list"
  | .ParameterDeclaration => "parameter declaration"
  | .IdentifierList => "identifier list"
  | .TypeName => "type name"
  | .AbstractDeclarator => "abstract declarator"
  | .DirectAbstractDeclarator => "direct abstract declarator"
  | .TypedefName => "typedef name"
  | .Initializer => "initializer"
  | .InitializerList => "initializer list"
  | .Designation => "designation"
  | .DesignatorList => "designator list"
  | .Designator => "designator"
  | .StaticAssertDeclaration => "static assert declaration"
  | .Statement => "statement"
  | .LabeledStatement => "labeled statement"
  | .CompoundStatement => "compound statement"
  | .BlockItemList => "block item list"
  | .BlockItem => "block item"
  | .ExpressionStatement => "expression statement"
  | .SelectionStatement => "selection statement"
  | .IterationStatement => "iteration statement"
  | .JumpStatement => "jump statement"
  | .CompilationUnit => "compilation unit"
  | .TranslationUnit => "translation unit"
  | .ExternalDeclaration => "external declaration"
  | .FunctionDefinition => "function definition"
  | .DeclarationList => "declaration list"
  | .Identifier => "identifier"
  | .Constant => "constant"
  | .IntegerConstant => "integer constant"
  | .FloatingConstant => "floating constant"
  | .EnumerationConstant => "enumeration constant"
  | .CharacterConstant => "character constant"
  | .EncodingPrefix => "encoding prefix"
  | .StringLiteral => "string literal"
  | .StringLiteralList => "string literal list"
  | .AsmBlock => "asm block"
  | .CompoundLiteral => "compound literal"
  | .ArraySubscripting => "array subscripting"
  | .FunctionCall => "function call"
  | .MemberAccess => "member access"
  | .PointerMemberAccess => "pointer member access"
  | .PostfixIncrement => "postfix increment"
  | .PostfixDecrement => "postfix decrement"
  | .PointerDeclarator => "pointer declarator"
  | .ArrayDeclarator => "array declarator"
  | .ArrayStaticDeclarator => "array (with static) declarator"
  | .ArrayVLADeclarator => "variable length array declarator"
  | .FunctionDeclarator => "function declarator"
  | .VariadicParameter => "'...' (variadic parameter)"
  | .Nothing => "empty"
  | .None => "«unreachable»"

/-- `parser_one_of(parser, begin, end, expected, rule, rules...)`: run the
rules in order and return the first result that is not a give-up; when all
give up, a `GiveUp` at `begin` carrying `expected_what` (with the iterator at
`end`). -/
def parser_one_of (toks : List Token) (expected_what : String) :
    List ParserRule → TokenIterator → ParserResult
  | [], b => ⟨toks.length, make_error ParserStatus.GiveUp b expected_what⟩
  | r :: rs, b =>
    let res := r toks b
    if is_giveup res.state then parser_one_of toks expected_what rs b else res

/-- `parser_operator(node_type, op_match)`: a single-token rule matching one
token with `op_match`, producing a leaf of `node_type`. -/
def parser_operator (op_type : NodeType) (op_match : Token → Bool) : ParserRule :=
  fun toks b =>
    if b < toks.length ∧ op_match (tokenAt toks b) = true then
      ⟨b + 1, .success (some (SyntaxTree.leaf op_type (tokenAt toks b)))⟩
    else
      ⟨toks.length, make_error ParserStatus.GiveUp b (node_type_to_string op_type)⟩

/-- The `while (true)` fold of `parser_left_binary_operator`: while the
operator rule matches, parse a right-hand side, recover by one token when it
fails (unless at `end`), and merge operator node, left state and right state.
`fuel` bounds the iterations; the callers below pass enough fuel for every
rule that never moves the iterator backwards, which holds throughout the
file. -/
def left_binary_loop (toks : List Token) (op_rule rhs_rule : ParserRule) :
    Nat → TokenIterator → ParserState → ParserResult
  | 0, lhs_it, lhs_state => ⟨lhs_it, lhs_state⟩
  | fuel + 1, lhs_it, lhs_state =>
    let opr := op_rule toks lhs_it
    if is_giveup opr.state then ⟨lhs_it, lhs_state⟩
    else
      let op_token := string_ref (tokenAt toks lhs_it)
      let rhsr := rhs_rule toks opr.next_token
      let lhs_it2 :=
        match rhsr.state with
        | .success _ => rhsr.next_token
        | .failure _ =>
          if opr.next_token ≠ toks.length then opr.next_token + 1 else opr.next_token
      let st := add_state opr.state
        (giveup_to_expected toks lhs_state
          ("expression for operator '" ++ op_token ++ "'"))
      let st := add_state st
        (giveup_to_expected toks rhsr.state
          ("expression for operator '" ++ op_token ++ "'"))
      left_binary_loop toks op_rule rhs_rule fuel lhs_it2 st

/-- `parser_left_binary_operator(lhs, op, rhs)`: parse one `lhs`, then fold
`op rhs` occurrences left-associatively via `left_binary_loop`. -/
def parser_left_binary_operator (lhs_rule op_rule rhs_rule : ParserRule) : ParserRule :=
  fun toks b =>
    if b = toks.length then
      ⟨toks.length, make_error ParserStatus.GiveUp b "binary operator"⟩
    else
      let lhsr := lhs_rule toks b
      if is_giveup lhsr.state then ⟨toks.length, lhsr.state⟩
      else
        left_binary_loop toks op_rule rhs_rule (toks.length + 2)
          lhsr.next_token lhsr.state

/-- `parser_right_binary_operator(lhs, op, rhs)`: one `lhs`, one `op`, then
one `rhs` (right recursion happens through the `rhs_rule` argument); any
give-up on the way yields `GiveUp "binary operator"` at `begin`. -/
def parser_right_binary_operator (lhs_rule op_rule rhs_rule : ParserRule) : ParserRule :=
  fun toks b =>
    if b ≠ toks.length then
      let lhsr := lhs_rule toks b
      if is_giveup lhsr.state = false then
        let opr := op_rule toks lhsr.next_token
        if is_giveup opr.state = false then
          let op_token := string_ref (tokenAt toks lhsr.next_token)
          let rhsr := rhs_rule toks opr.next_token
          let st := add_state opr.state lhsr.state
          let st := add_state st
            (giveup_to_expected toks rhsr.state
              ("expression for operator '" ++ op_token ++ "'"))
          ⟨rhsr.next_token, st⟩
        else ⟨toks.length, make_error ParserStatus.GiveUp b "binary operator"⟩
      else ⟨toks.length, make_error ParserStatus.GiveUp b "binary operator"⟩
    else ⟨toks.length, make_error ParserStatus.GiveUp b "binary operator"⟩

/-- `expect_token(state, it, end, token)`: report "expected '<token>' before
'<current>'" on a kind mismatch; returns whether the iterator may advance
past the expected token, with the (possibly extended) state. -/
def expect_token (toks : List Token) (state : ParserState) (it : TokenIterator)
    (tk : TokenType) : Bool × ParserState :=
  if it ≠ toks.length ∧ (tokenAt toks it).type ≠ tk then
    (false, add_error state ⟨ParserStatus.Error, it,
      "expected '" ++ token_type_to_string tk ++ "' before '" ++
        token_type_to_string (tokenAt toks it).type ++ "'"⟩)
  else (it ≠ toks.length, state)

/-- `expect_end_token(state, begin, end, it, token)`: like `expect_token`,
but on a mismatch also notes "to match this '<opening token>'" at `begin`,
and at `end` reports "missing '<token>' for this" at `begin`. -/
def expect_end_token (toks : List Token) (state : ParserState) (b : TokenIterator)
    (it : TokenIterator) (tk : TokenType) : Bool × ParserState :=
  if it ≠ toks.length then
    if (tokenAt toks it).type ≠ tk then
      (false,
        add_error
          (add_error state ⟨ParserStatus.Error, it,
            "expected '" ++ token_type_to_string tk ++ "'"⟩)
          ⟨ParserStatus.ErrorNote, b,
            "to match this '" ++ token_type_to_string (tokenAt toks b).type ++ "'"⟩)
    else (true, state)
  else
    (false, add_error state ⟨ParserStatus.Error, b,
      "missing '" ++ token_type_to_string tk ++ "' for this"⟩)

/-- `parser_parens(rule, left_brace, right_brace)`: give up unless the
current token is `left_brace`; then run `rule` on the interior and require
`right_brace` via `expect_end_token` (skipped when the rule stopped exactly
at `end`). -/
def parser_parens (rule : ParserRule) (left_brace right_brace : TokenType) : ParserRule :=
  fun toks b =>
    if b < toks.length ∧ (tokenAt toks b).type = left_brace then
      let r := rule toks (b + 1)
      if is_giveup r.state then ⟨r.next_token, r.state⟩
      else if r.next_token ≠ toks.length then
        let er := expect_end_token toks r.state b r.next_token right_brace
        if er.1 then ⟨r.next_token + 1, er.2⟩ else ⟨r.next_token, er.2⟩
      else ⟨r.next_token, r.state⟩
    else
      ⟨toks.length, make_error ParserStatus.GiveUp b
        ("'" ++ token_type_to_string left_brace ++ "'")⟩

/-- The `while (it != end)` loop of `parser_list_of`: apply the rule,
committing its give-ups, skip one separating comma, honour a trailing comma
before a closing bracket when allowed, and stop when the rule did not stop on
a comma. -/
def list_of_loop (toks : List Token) (rule : ParserRule) (allow_trailing_comma : Bool) :
    Nat → TokenIterator → ParserState → ParserResult
  | 0, it, state => ⟨it, state⟩
  | fuel + 1, it, state =>
    if it = toks.length then ⟨it, state⟩
    else
      let r := rule toks it
      let state2 := add_state state (giveup_to_expected_default r.state)
      let itc :=
        if r.next_token ≠ toks.length ∧ (tokenAt toks r.next_token).type = TokenType.Comma
        then r.next_token + 1 else r.next_token
      if allow_trailing_comma = true ∧ itc ≠ toks.length ∧
          ((tokenAt toks itc).type = TokenType.RightBrace ∨
           (tokenAt toks itc).type = TokenType.RightBracket ∨
           (tokenAt toks itc).type = TokenType.RightParen) then
        ⟨itc, state2⟩
      else if r.next_token = toks.length ∨ (tokenAt toks r.next_token).type ≠ TokenType.Comma then
        ⟨itc, state2⟩
      else
        list_of_loop toks rule allow_trailing_comma fuel itc state2

/-- `parser_list_of(rule, allow_trailing_comma)`: a comma-separated list over
an accumulator node (the default-constructed `None` tree, elided on merge). -/
def parser_list_of (rule : ParserRule) (allow_trailing_comma : Bool) : ParserRule :=
  fun toks b =>
    if b ≠ toks.length then
      list_of_loop toks rule allow_trailing_comma (toks.length + 2) b
        (.success (some SyntaxTree.empty))
    else ⟨toks.length, make_error ParserStatus.GiveUp b "parser_list_of"⟩

/-- `parser_identifier`: one `Identifier` token to an `Identifier` leaf. -/
def parser_identifier : ParserRule :=
  fun toks b =>
    if b < toks.length ∧ (tokenAt toks b).type = TokenType.Identifier then
      ⟨b + 1, .success (some (SyntaxTree.leaf NodeType.Identifier (tokenAt toks b)))⟩
    else ⟨toks.length, make_error ParserStatus.GiveUp b "identifier"⟩

/-- `parser_typedef_name`: the body's condition is `(false) && begin != end
&& begin->type == Identifier` — the disabled-code gate from the source is
kept verbatim. -/
def parser_typedef_name : ParserRule :=
  fun toks b =>
    if False ∧ b < toks.length ∧ (tokenAt toks b).type = TokenType.Identifier then
      ⟨b + 1, .success (some (SyntaxTree.leaf NodeType.TypedefName (tokenAt toks b)))⟩
    else ⟨toks.length, make_error ParserStatus.GiveUp b "typedef name"⟩

end CComp

namespace CComp

/-- The assignment-operator predicate of `parser_assignment_expression`:
`= *= /= %= += -= <<= >>= &= ^= |=`. -/
def assignment_op_match (t : Token) : Bool :=
  match t.type with
  | .Assign => true
  | .TimesAssign => true
  | .DivideAssign => true
  | .ModuloAssign => true
  | .PlusAssign => true
  | .MinusAssign => true
  | .BitwiseLeftShiftAssign => true
  | .BitwiseRightShiftAssign => true
  | .BitwiseAndAssign => true
  | .BitwiseXorAssign => true
  | .BitwiseOrAssign => true
  | _ => false

/-- `parser_assignment_expression`, parametric in its two callees
`parser_unary_expression` and `parser_conditional_expression` (whose own
grammars the assignment level does not depend on); the self-recursion of the
right-hand side is paid for by `fuel` (the token count suffices, as each
recursion sits behind an operator token). -/
def parser_assignment_expression (unary_rule conditional_rule : ParserRule) :
    Nat → ParserRule
  | 0 => fun toks b => ⟨toks.length, make_error ParserStatus.GiveUp b "assignment expression"⟩
  | fuel + 1 => fun toks b =>
    if b = toks.length then
      ⟨toks.length, make_error ParserStatus.GiveUp b "assignment expression"⟩
    else
      let assign_operator := parser_operator NodeType.AssignmentExpression assignment_op_match
      let production := parser_right_binary_operator unary_rule assign_operator
        (parser_assignment_expression unary_rule conditional_rule fuel)
      parser_one_of toks "assignment or conditional expression"
        [production, conditional_rule] b

/-- The `compound_literal_production` lambda of `parser_postfix_expression`,
parametric in `parser_type_name` and `parser_initializer_list`. -/
def compound_literal_production (type_name_rule init_list_rule : ParserRule) : ParserRule :=
  fun toks b =>
    if b ≠ toks.length then
      let tn := parser_parens type_name_rule TokenType.LeftParen TokenType.RightParen toks b
      if is_giveup tn.state = false then
        let il := parser_parens init_list_rule TokenType.LeftBrace TokenType.RightBrace
          toks tn.next_token
        if is_giveup il.state = false then
          let st := add_state
            (add_state (.success (some (SyntaxTree.node NodeType.CompoundLiteral))) tn.state)
            il.state
          ⟨il.next_token, st⟩
        else ⟨toks.length, make_error ParserStatus.GiveUp b "compound literal"⟩
      else ⟨toks.length, make_error ParserStatus.GiveUp b "compound literal"⟩
    else ⟨toks.length, make_error ParserStatus.GiveUp b "compound literal"⟩

/-- The `postfix_production` lambda of `parser_postfix_expression`: one
postfix operator — array subscript, call, member access, `++`/`--` —
parametric in `parser_expression` and `parser_assignment_expression`. -/
def postfix_production (expression_rule assignment_rule : ParserRule) : ParserRule :=
  fun toks b =>
    if b = toks.length then ⟨toks.length, make_error ParserStatus.GiveUp b "postfix operator"⟩
    else
      match (tokenAt toks b).type with
      | TokenType.LeftBracket =>
        let er := expression_rule toks (b + 1)
        let ee := expect_end_token toks er.state b er.next_token TokenType.RightBracket
        if ee.1 then
          let st := add_state
            (.success (some (SyntaxTree.leaf NodeType.ArraySubscripting (tokenAt toks b))))
            (giveup_to_expected toks er.state "expression")
          ⟨er.next_token + 1, st⟩
        else ⟨er.next_token, ee.2⟩
      | TokenType.LeftParen =>
        let postfix_op : ParserState :=
          .success (some (SyntaxTree.leaf NodeType.FunctionCall (tokenAt toks b)))
        if b + 1 ≠ toks.length ∧ (tokenAt toks (b + 1)).type = TokenType.RightParen then
          ⟨b + 2, postfix_op⟩
        else
          let ar := parser_parens (parser_list_of assignment_rule false)
            TokenType.LeftParen TokenType.RightParen toks b
          let arguments := add_state
            (.success (some (SyntaxTree.node NodeType.ArgumentExpressionList)))
            (giveup_to_expected toks ar.state "argument list")
          ⟨ar.next_token, add_state postfix_op arguments⟩
      | TokenType.Dot =>
        let ir := parser_identifier toks (b + 1)
        let st := add_state
          (.success (some (SyntaxTree.leaf NodeType.MemberAccess (tokenAt toks b))))
          (giveup_to_expected_default ir.state)
        ⟨ir.next_token, st⟩
      | TokenType.RightArrow =>
        let ir := parser_identifier toks (b + 1)
        let st := add_state
          (.success (some (SyntaxTree.leaf NodeType.PointerMemberAccess (tokenAt toks b))))
          (giveup_to_expected_default ir.state)
        ⟨ir.next_token, st⟩
      | TokenType.Increment =>
        ⟨b + 1, .success (some (SyntaxTree.leaf NodeType.PostfixIncrement (tokenAt toks b)))⟩
      | TokenType.Decrement =>
        ⟨b + 1, .success (some (SyntaxTree.leaf NodeType.PostfixDecrement (tokenAt toks b)))⟩
      | _ => ⟨toks.length, make_error ParserStatus.GiveUp b "postfix operator"⟩

/-- The `while (true)` fold of `parser_postfix_expression`: while a postfix
operator applies, the accumulated expression becomes the last child of the
new operator node. -/
def postfix_loop (toks : List Token) (expression_rule assignment_rule : ParserRule) :
    Nat → TokenIterator → ParserState → ParserResult
  | 0, it, expr => ⟨it, expr⟩
  | fuel + 1, it, expr =>
    let op := postfix_production expression_rule assignment_rule toks it
    if is_giveup op.state = false then
      postfix_loop toks expression_rule assignment_rule fuel op.next_token
        (add_state op.state expr)
    else ⟨it, expr⟩

/-- `parser_postfix_expression`, parametric in `parser_type_name`,
`parser_initializer_list`, `parser_expression`,
`parser_assignment_expression` and `parser_primary_expression` (on an
`Identifier` token the real primary rule reduces to `parser_identifier`, its
first alternative). -/
def parser_postfix_expression
    (type_name_rule init_list_rule expression_rule assignment_rule primary_rule : ParserRule) :
    ParserRule :=
  fun toks b =>
    if b ≠ toks.length then
      let e := parser_one_of toks "compound literal or expression"
        [compound_literal_production type_name_rule init_list_rule, primary_rule] b
      if is_giveup e.state then ⟨toks.length, e.state⟩
      else
        postfix_loop toks expression_rule assignment_rule (toks.length + 2)
          e.next_token e.state
    else ⟨toks.length, make_error ParserStatus.GiveUp b "postfix expression"⟩

/-- The `while (it != end)` loop of `parser_compilation_unit`: skip past a
final `Eof`, silently skip stray `';'`, otherwise parse one external
declaration (function definition or declaration) and commit its give-ups.
Running out of fuel (`none`) models a non-terminating run. -/
def compilation_unit_loop (toks : List Token) (fd dcl : ParserRule) :
    Nat → TokenIterator → ParserState → Option (TokenIterator × ParserState)
  | 0, _, _ => none
  | fuel + 1, it, state =>
    if it = toks.length then some (it, state)
    else if (tokenAt toks it).type = TokenType.Eof then some (it + 1, state)
    else if (tokenAt toks it).type = TokenType.Semicolon then
      compilation_unit_loop toks fd dcl fuel (it + 1) state
    else
      let r := parser_one_of toks "external declaration" [fd, dcl] it
      compilation_unit_loop toks fd dcl fuel r.next_token
        (add_state state (giveup_to_expected_default r.state))

/-- `parser_compilation_unit`, parametric in `parser_function_definition` and
`parser_declaration` (the two alternatives its loop tries, in this order). -/
def parser_compilation_unit (fd dcl : ParserRule) (toks : List Token)
    (b : TokenIterator) : Option ParserResult :=
  if b ≠ toks.length then
    let cu : ParserState := .success (some (SyntaxTree.node NodeType.CompilationUnit))
    if (tokenAt toks b).type ≠ TokenType.Eof then
      match compilation_unit_loop toks fd dcl (toks.length + 2) b cu with
      | some r => some ⟨r.1, r.2⟩
      | none => none
    else some ⟨b + 1, cu⟩
  else some ⟨toks.length, make_error ParserStatus.GiveUp b "compilation unit"⟩

/-- A diagnostic handed to the program context (`error` or `note`). -/
inductive DiagnosticKind where
  | error
  | note
  deriving DecidableEq, Repr

/-- One emitted diagnostic: its kind, the token index whose source range and
line/column the source manager resolves, and the message. -/
structure Diagnostic where
  kind : DiagnosticKind
  where_ : TokenIterator
  message : String
  deriving DecidableEq, Repr

/-- The emission loop at the end of `SyntaxTree::parse`: each failure entry
whose iterator is not `tokens.end()` becomes a `note` (for `ErrorNote`) or an
`error` (for everything else) at its stored iterator. -/
def emit_diagnostics (toks : List Token) (es : List ParserError) : List Diagnostic :=
  es.filterMap fun e =>
    if e.where_ ≠ toks.length then
      some ⟨(if e.status = ParserStatus.ErrorNote then DiagnosticKind.note
             else DiagnosticKind.error), e.where_, e.error⟩
    else none

/-- `SyntaxTree::parse(program, tokens)`: run the compilation unit over the
whole stream, promote surviving give-ups, then either return the tree or
return null and emit the diagnostics; the reported iterator (subject of the
`Ensures(it == tokens.end())` contract) is exposed as the first component. -/
def parse (fd dcl : ParserRule) (toks : List Token) :
    Option (TokenIterator × Option SyntaxTree × List Diagnostic) :=
  match parser_compilation_unit fd dcl toks 0 with
  | none => none
  | some r =>
    match giveup_to_expected_default r.state with
    | .success t => some (r.next_token, t, [])
    | .failure es => some (r.next_token, none, emit_diagnostics toks es)

/-- `std::find_if(line_end, range.end(), c == '\n')` over a valid range:
the first index at or after `i` holding a newline, or the buffer length. -/
def find_newline (s : List Char) (i : Nat) : Nat :=
  i + ((s.drop i).findIdx fun c => c == '\n')

/-- The constructor loop of `SourceManager::SourceLineCache`: while
`line_end != range.end()`, find the next newline, record
`(line_begin, line_end)`, and restart both cursors one past the newline.
`none` models the undefined behaviour of calling `find_if` on the invalid
range that arises when `line_end` has stepped past `range.end()` (and, never
reached with the fuel below, fuel exhaustion). -/
def source_line_cache_loop (s : List Char) :
    Nat → Nat → Nat → List (Nat × Nat) → Option (List (Nat × Nat))
  | 0, _, _, _ => none
  | fuel + 1, line_begin, line_end, acc =>
    if line_end = s.length then some acc
    else if s.length < line_end then none
    else
      let f := find_newline s line_end
      source_line_cache_loop s fuel (f + 1) (f + 1) (acc ++ [(line_begin, f)])

/-- `SourceLineCache(range)` over a buffer: the recorded
`(line begin, line end)` offset pairs, or `none` when construction does not
terminate normally. -/
def SourceLineCache (s : List Char) : Option (List (Nat × Nat)) :=
  source_line_cache_loop s (s.length + 2) 0 0 []

/-- Modelled from the spec: `SourceRange::contains` (the header defining
`SourceRange` is outside this repository slice).  The preconditions of
`linecol_from_location` (`loc <= offsets.back().end()`) and the inclusion of
the newline position in its line require inclusive bounds. -/
def range_contains (r : Nat × Nat) (loc : Nat) : Bool :=
  r.1 ≤ loc && loc ≤ r.2

/-- `SourceManager::linecol_from_location`: scan the line cache for the first
range containing the location; 1-based line and column.  The
`Expects`/`Unreachable` paths are modelled as `none`. -/
def linecol_from_location (cache : List (Nat × Nat)) (loc : Nat) : Option (Nat × Nat) :=
  match cache.findIdx? (fun r => range_contains r loc) with
  | some i => some (i + 1, loc - (cache.getD i (0, 0)).1 + 1)
  | none => none

end CComp

namespace CComp

/-- The preserved kinds exactly as the specification words them: every node
kind whose name ends in "List" — there are sixteen in `NodeType` — plus the
structural kinds it enumerates by name. -/
def spec_preserved_kinds (ty : NodeType) : Bool :=
  [NodeType.GenericAssocList, NodeType.ArgumentExpressionList,
   NodeType.InitDeclaratorList, NodeType.StructDeclarationList,
   NodeType.SpecifierQualifierList, NodeType.StructDeclaratorList,
   NodeType.EnumeratorList, NodeType.TypeQualifierList,
   NodeType.ParameterTypeList, NodeType.ParameterList,
   NodeType.IdentifierList, NodeType.InitializerList, NodeType.DesignatorList,
   NodeType.BlockItemList, NodeType.DeclarationList, NodeType.StringLiteralList,
   NodeType.Declaration, NodeType.DeclarationSpecifiers,
   NodeType.FunctionSpecifier, NodeType.AlignmentSpecifier,
   NodeType.TranslationUnit, NodeType.CompilationUnit,
   NodeType.FunctionDeclarator].contains ty

/-- The elision predicate exactly as the claim words it, over the claim's
preserved set. -/
def claim_should_elide (n : SyntaxTree) : Bool :=
  n.type == NodeType.None ||
    (!n.has_annotation && !(spec_preserved_kinds n.type) && !n.has_text &&
      n.child_count == 1)

/-- The kinds the `switch` of the source's `should_elide` actually preserves:
the claim's set minus `BlockItemList`, `DeclarationList` and
`StringLiteralList`. -/
def code_preserved_kinds (ty : NodeType) : Bool :=
  [NodeType.GenericAssocList, NodeType.ArgumentExpressionList,
   NodeType.InitDeclaratorList, NodeType.StructDeclarationList,
   NodeType.SpecifierQualifierList, NodeType.StructDeclaratorList,
   NodeType.EnumeratorList, NodeType.TypeQualifierList,
   NodeType.ParameterTypeList, NodeType.ParameterList,
   NodeType.IdentifierList, NodeType.InitializerList, NodeType.DesignatorList,
   NodeType.Declaration, NodeType.DeclarationSpecifiers,
   NodeType.FunctionSpecifier, NodeType.AlignmentSpecifier,
   NodeType.TranslationUnit, NodeType.CompilationUnit,
   NodeType.FunctionDeclarator].contains ty

/-- The elision predicate in the claim's phrasing, but over the set the code
preserves. -/
def amended_should_elide (n : SyntaxTree) : Bool :=
  n.type == NodeType.None ||
    (!n.has_annotation && !(code_preserved_kinds n.type) && !n.has_text &&
      n.child_count == 1)

/-- No proper descendant of the tree satisfies `should_elide` (the root
itself may still be a transient wrapper that a later merge elides). -/
inductive NoElidableDesc : SyntaxTree → Prop
  | mk (ty : NodeType) (tk : Option Token) (a : Bool) (cs : List SyntaxTree)
      (h1 : ∀ c ∈ cs, should_elide c = false)
      (h2 : ∀ c ∈ cs, NoElidableDesc c) :
      NoElidableDesc (.mk ty tk a cs)

/-- Every tree a success state holds has no elidable proper descendant. -/
def state_no_elidable (s : ParserState) : Prop :=
  ∀ t, s = .success (some t) → NoElidableDesc t

/-- The parser states reachable through construction and the merging
operations of the state algebra of `src/parser.cpp`. -/
inductive ReachableState : ParserState → Prop
  | success (t : Option SyntaxTree) : ReachableState (.success t)
  | one_error (st : ParserStatus) (w : TokenIterator) (msg : String) :
      ReachableState (make_error st w msg)
  | add_err {s : ParserState} (e : ParserError) :
      ReachableState s → ReachableState (add_error s e)
  | add_errs {s : ParserState} (es : List ParserError) :
      ReachableState s → ReachableState (add_error_list s es)
  | add_one_node {s : ParserState} (n : SyntaxTree) :
      ReachableState s → ReachableState (add_node s n)
  | merge {s other : ParserState} :
      ReachableState s → ReachableState other → ReachableState (add_state s other)
  | promote {s : ParserState} (toks : List Token) (what : String) :
      ReachableState s → ReachableState (giveup_to_expected toks s what)
  | promote_default {s : ParserState} :
      ReachableState s → ReachableState (giveup_to_expected_default s)

/-- A state that is a pure success or a failure holding at least one
error. -/
def pure_state (s : ParserState) : Prop :=
  (∃ t, s = ParserState.success t) ∨ ∃ e es, s = ParserState.failure (e :: es)

end CComp

namespace CComp

theorem pure_add_error (s : ParserState) (e : ParserError) :
    pure_state (add_error s e) := by
  cases s with
  | success t => exact Or.inr ⟨e, [], rfl⟩
  | failure es =>
    cases es with
    | nil => exact Or.inr ⟨e, [], rfl⟩
    | cons x xs => exact Or.inr ⟨x, xs ++ [e], by simp [add_error]⟩

theorem pure_foldl {f : ParserState → ParserError → ParserState}
    (hf : ∀ s e, pure_state (f s e)) :
    ∀ (es : List ParserError) (s : ParserState), pure_state s → pure_state (es.foldl f s)
  | [], _, h => h
  | e :: es, s, _ => pure_foldl hf es (f s e) (hf s e)

theorem pure_add_error_list (s : ParserState) (es : List ParserError)
    (h : pure_state s) : pure_state (add_error_list s es) :=
  pure_foldl pure_add_error es s h

theorem pure_add_node (s : ParserState) (n : SyntaxTree) (h : pure_state s) :
    pure_state (add_node s n) := by
  cases s with
  | success t =>
    cases t with
    | none => exact Or.inl ⟨some n, rfl⟩
    | some tree =>
      by_cases he : tree.type = NodeType.None ∨ should_elide tree
      all_goals simp only [add_node]
      · split
        · exact Or.inl ⟨_, rfl⟩
        · exact Or.inl ⟨_, rfl⟩
      · split
        · exact Or.inl ⟨_, rfl⟩
        · exact Or.inl ⟨_, rfl⟩
  | failure es => exact h

theorem pure_add_state (s other : ParserState) (h : pure_state s) :
    pure_state (add_state s other) := by
  cases other with
  | success t =>
    cases t with
    | none => exact h
    | some tree => exact pure_add_node s tree h
  | failure es => exact pure_add_error_list s es h

theorem pure_giveup_to_expected (toks : List Token) (s : ParserState) (what : String)
    (h : pure_state s) : pure_state (giveup_to_expected toks s what) := by
  cases s with
  | success t => exact Or.inl ⟨t, rfl⟩
  | failure es =>
    refine pure_foldl (fun ns e => ?_) es (.success none) (Or.inl ⟨none, rfl⟩)
    dsimp only
    split
    · split
      · exact pure_add_error _ _
      · exact pure_add_error _ _
    · exact pure_add_error _ _

theorem pure_giveup_to_expected_default (s : ParserState)
    (h : pure_state s) : pure_state (giveup_to_expected_default s) := by
  cases s with
  | success t => exact Or.inl ⟨t, rfl⟩
  | failure es =>
    refine pure_foldl (fun ns e => ?_) es (.success none) (Or.inl ⟨none, rfl⟩)
    dsimp only
    split
    · exact pure_add_error _ _
    · exact pure_add_error _ _

/-- C3.  `add_error` on a success replaces it with a failure of exactly that
one error; on a failure it appends; and every state reachable through the
state algebra's construction and merging operations is either a pure success
or a failure holding at least one error — a success never coexists with
accumulated errors. -/
theorem c3_success_never_coexists_with_errors :
    (∀ (t : Option SyntaxTree) (e : ParserError),
      add_error (.success t) e = .failure [e]) ∧
    (∀ (es : List ParserError) (e : ParserError),
      add_error (.failure es) e = .failure (es ++ [e])) ∧
    (∀ s, ReachableState s → pure_state s) := by
  refine ⟨fun t e => rfl, fun es e => rfl, fun s h => ?_⟩
  induction h with
  | success t => exact Or.inl ⟨t, rfl⟩
  | one_error st w msg => exact Or.inr ⟨⟨st, w, msg⟩, [], rfl⟩
  | add_err e _ ih => exact pure_add_error _ e
  | add_errs es _ ih => exact pure_add_error_list _ es ih
  | add_one_node n _ ih => exact pure_add_node _ n ih
  | merge _ _ ih1 ih2 => exact pure_add_state _ _ ih1
  | promote toks what _ ih => exact pure_giveup_to_expected toks _ what ih
  | promote_default _ ih => exact pure_giveup_to_expected_default _ ih

/-- Witness for C3: the theorem applied to the concrete reachable state built
by one `add_error` on a success — a failure holding exactly that error. -/
theorem c3_witness :
    pure_state (add_error (.success none) ⟨ParserStatus.Error, 0, "x"⟩) :=
  c3_success_never_coexists_with_errors.2.2 _
    (ReachableState.add_err ⟨ParserStatus.Error, 0, "x"⟩ (ReachableState.success none))

end CComp

namespace CComp

theorem elide_preserved_eq_not_code_preserved (ty : NodeType) :
    elide_preserved ty = !(code_preserved_kinds ty) := by
  cases ty <;> rfl

/-- C2, counterexample.  A `DeclarationList` node (a `*List` kind, hence
preserved according to the claim) without text or annotation and with exactly
one child is elided by the code: `should_elide` answers `true` where the
claim's characterisation answers `false`. -/
theorem c2_counterexample :
    ¬ (should_elide
        (.mk NodeType.DeclarationList none false
          [SyntaxTree.leaf NodeType.Identifier ⟨TokenType.Identifier, "x"⟩]) = true ↔
       claim_should_elide
        (.mk NodeType.DeclarationList none false
          [SyntaxTree.leaf NodeType.Identifier ⟨TokenType.Identifier, "x"⟩]) = true) := by
  decide

/-- C2, amended.  `should_elide(n)` is true iff `n`'s type is `None`, or else
`n` has no annotation, its type is outside the set the code's `switch`
preserves — the claim's set minus `BlockItemList`, `DeclarationList` and
`StringLiteralList` — it has no text, and it has exactly one child;
consequently `add_node` keeps a tree free of elidable proper descendants:
whichever node it merges in is either elided on the spot or enters the tree
non-elidable. -/
theorem c2_should_elide_characterisation :
    (∀ n, should_elide n = true ↔ amended_should_elide n = true) ∧
    (∀ (s : ParserState) (n : SyntaxTree), state_no_elidable s →
      NoElidableDesc n → state_no_elidable (add_node s n)) := by
  constructor
  · intro n
    obtain ⟨ty, tk, a, cs⟩ := n
    simp only [should_elide, amended_should_elide, SyntaxTree.type,
      SyntaxTree.has_annotation, SyntaxTree.ann, SyntaxTree.has_text,
      SyntaxTree.token, SyntaxTree.child_count, SyntaxTree.children,
      elide_preserved_eq_not_code_preserved]
    split_ifs with h1 h2 h3 h4 <;> simp_all
  · intro s n hs hn t' ht'
    cases s with
    | failure es => simp [add_node] at ht'
    | success o =>
      cases o with
      | none =>
        simp only [add_node] at ht'
        cases ht'
        exact hn
      | some tree =>
        simp only [add_node] at ht'
        split at ht'
        · cases ht'
          obtain ⟨ty, tk, a, cs⟩ := tree
          obtain ⟨nty, ntk, na, ncs, hn1, hn2⟩ := hn
          obtain ⟨_, _, _, _, ht1, ht2⟩ := hs _ rfl
          refine NoElidableDesc.mk _ _ _ _ ?_ ?_ <;> intro c hc <;>
            rcases List.mem_append.mp hc with hvc | hvc
          · exact ht1 c hvc
          · exact hn1 c hvc
          · exact ht2 c hvc
          · exact hn2 c hvc
        · cases ht'
          obtain ⟨ty, tk, a, cs⟩ := tree
          obtain ⟨_, _, _, _, ht1, ht2⟩ := hs _ rfl
          rename_i hguard
          refine NoElidableDesc.mk _ _ _ _ ?_ ?_ <;> intro c hc <;>
            rcases List.mem_append.mp hc with hvc | hvc
          · exact ht1 c hvc
          · rcases List.mem_singleton.mp hvc with rfl
            exact Bool.eq_false_iff.mpr fun hb => hguard (Or.inr hb)
          · exact ht2 c hvc
          · rcases List.mem_singleton.mp hvc with rfl
            exact hn

end CComp

namespace CComp

/-- Witness for C2: the preservation half applied at a concrete state (the
empty success) and node (an identifier leaf). -/
theorem c2_witness :
    state_no_elidable (add_node (.success none)
      (SyntaxTree.leaf NodeType.Identifier ⟨TokenType.Identifier, "x"⟩)) :=
  c2_should_elide_characterisation.2 _ _
    (by intro t h; simp at h)
    (NoElidableDesc.mk _ _ _ _ (by intro c hc; simp at hc) (by intro c hc; simp at hc))

/-- C7.  `parser_typedef_name` returns a `GiveUp` failure on every input —
the disabled-code gate means it never produces a `TypedefName` node — and
appending it as the last alternative of any `parser_one_of` (as
`parser_type_specifier` does) never changes the alternation's outcome. -/
theorem c7_typedef_name_never_matches :
    (∀ (toks : List Token) (b : TokenIterator),
      parser_typedef_name toks b =
        ⟨toks.length, make_error ParserStatus.GiveUp b "typedef name"⟩) ∧
    (∀ (toks : List Token) (expected : String) (rules : List ParserRule)
        (b : TokenIterator),
      parser_one_of toks expected (rules ++ [parser_typedef_name]) b =
        parser_one_of toks expected rules b) := by
  have hgu : ∀ (toks : List Token) (b : TokenIterator),
      parser_typedef_name toks b =
        ⟨toks.length, make_error ParserStatus.GiveUp b "typedef name"⟩ := by
    intro toks b
    simp [parser_typedef_name]
  refine ⟨hgu, fun toks expected rules b => ?_⟩
  induction rules with
  | nil =>
    simp [parser_one_of, hgu, is_giveup, make_error]
  | cons r rs ih =>
    simp only [List.cons_append, parser_one_of]
    split
    · exact ih
    · rfl

/-- C9.  Evidence for the line-cache defect: a buffer whose last line lacks a
final newline drives the constructor loop onto an invalid iterator range
(modelled `none`) — construction does not terminate normally — while a
newline-terminated buffer is split correctly at each `'\n'` and
`linecol_from_location` then resolves every in-range location to 1-based
line/column pairs. -/
theorem c9_line_cache_at_failing_input :
    SourceLineCache "ab".data = none ∧
    SourceLineCache "a\nb\n".data = some [(0, 1), (2, 3)] ∧
    linecol_from_location [(0, 1), (2, 3)] 0 = some (1, 1) ∧
    linecol_from_location [(0, 1), (2, 3)] 1 = some (1, 2) ∧
    linecol_from_location [(0, 1), (2, 3)] 2 = some (2, 1) ∧
    linecol_from_location [(0, 1), (2, 3)] 3 = some (2, 2) ∧
    source_line_cache_loop "ab".data ("ab".data.length + 2) 0 0 [] = none := by
  refine ⟨?_, ?_, ?_, ?_, ?_, ?_, ?_⟩ <;> rfl

end CComp

namespace CComp

/-- C6, counterexample.  With the current token being the open token but the
interior rule giving up (here: `(` followed by `)` and an identifier rule),
`parser_parens` propagates the give-up — it has consumed nothing and has not
committed, contradicting "once open is consumed it commits". -/
theorem c6_counterexample :
    (tokenAt [⟨TokenType.LeftParen, "("⟩, ⟨TokenType.RightParen, ")"⟩,
      ⟨TokenType.Eof, ""⟩] 0).type = TokenType.LeftParen ∧
    is_giveup (parser_parens parser_identifier TokenType.LeftParen TokenType.RightParen
      [⟨TokenType.LeftParen, "("⟩, ⟨TokenType.RightParen, ")"⟩,
        ⟨TokenType.Eof, ""⟩] 0).state = true := by
  decide

/-- C6, amended.  `parser_parens` gives up without committing unless the
current token is the open token; once open is consumed and the interior rule
has not itself given up, it commits, and a missing close token produces an
Error "expected '<close>'" at the current token plus an ErrorNote
"to match this '<open>'" at the open token; concretely, the parenthesised
condition of `while (x { }` yields an Error at `{` containing "expected ')'"
and an ErrorNote at `(` containing "to match this '('". -/
theorem c6_parens_open_close_errors :
    (∀ (rule : ParserRule) (toks : List Token) (b : TokenIterator)
        (opening closing : TokenType),
      ¬ (b < toks.length ∧ (tokenAt toks b).type = opening) →
      parser_parens rule opening closing toks b =
        ⟨toks.length, make_error ParserStatus.GiveUp b
          ("'" ++ token_type_to_string opening ++ "'")⟩) ∧
    (∀ (rule : ParserRule) (toks : List Token) (b it : TokenIterator)
        (t : SyntaxTree) (opening closing : TokenType),
      b < toks.length → (tokenAt toks b).type = opening →
      rule toks (b + 1) = ⟨it, .success (some t)⟩ →
      it < toks.length → (tokenAt toks it).type ≠ closing →
      parser_parens rule opening closing toks b =
        ⟨it, .failure
          [⟨ParserStatus.Error, it, "expected '" ++ token_type_to_string closing ++ "'"⟩,
           ⟨ParserStatus.ErrorNote, b, "to match this '" ++ token_type_to_string opening ++ "'"⟩]⟩) ∧
    (parser_parens parser_identifier TokenType.LeftParen TokenType.RightParen
        [⟨TokenType.LeftParen, "("⟩, ⟨TokenType.Identifier, "x"⟩,
         ⟨TokenType.LeftBrace, "\x7b"⟩, ⟨TokenType.RightBrace, "\x7d"⟩,
         ⟨TokenType.Eof, ""⟩] 0 =
      ⟨2, .failure
        [⟨ParserStatus.Error, 2, "expected ')'"⟩,
         ⟨ParserStatus.ErrorNote, 0, "to match this '('"⟩]⟩) := by
  refine ⟨?_, ?_, ?_⟩
  · intro rule toks b opening closing h
    simp [parser_parens, h]
  · intro rule toks b it t opening closing h1 h2 h3 h4 h5
    have hne : it ≠ toks.length := Nat.ne_of_lt h4
    simp [parser_parens, h1, h2, h3, is_giveup, hne, expect_end_token, h5, add_error]
  · rfl

/-- Witness for C6: the missing-close half applied at the concrete
`( x { }` token stream. -/
theorem c6_witness :
    parser_parens parser_identifier TokenType.LeftParen TokenType.RightParen
        [⟨TokenType.LeftParen, "("⟩, ⟨TokenType.Identifier, "x"⟩,
         ⟨TokenType.LeftBrace, "\x7b"⟩, ⟨TokenType.RightBrace, "\x7d"⟩,
         ⟨TokenType.Eof, ""⟩] 0 =
      ⟨2, .failure
        [⟨ParserStatus.Error, 2, "expected ')'"⟩,
         ⟨ParserStatus.ErrorNote, 0, "to match this '('"⟩]⟩ :=
  c6_parens_open_close_errors.2.1 parser_identifier _ 0 2
    (SyntaxTree.leaf NodeType.Identifier ⟨TokenType.Identifier, "x"⟩)
    TokenType.LeftParen TokenType.RightParen
    (by decide) (by decide) rfl (by decide) (by decide)

end CComp

namespace CComp

theorem is_giveup_success (t : Option SyntaxTree) :
    is_giveup (.success t) = false := rfl

theorem add_node_not_elidable (t : SyntaxTree) (n : SyntaxTree)
    (h : ¬ (n.type = NodeType.None ∨ should_elide n)) :
    add_node (.success (some t)) n = .success (some (t.add_child n)) := by
  simp only [add_node, if_neg h]

theorem left_binary_loop_step (toks : List Token) (op_rule rhs_rule : ParserRule)
    (fuel : Nat) (p q r : TokenIterator) (opl lt rt : SyntaxTree)
    (hop : op_rule toks p = ⟨q, .success (some opl)⟩)
    (hrhs : rhs_rule toks q = ⟨r, .success (some rt)⟩)
    (hlt : ¬ (lt.type = NodeType.None ∨ should_elide lt))
    (hrt : ¬ (rt.type = NodeType.None ∨ should_elide rt)) :
    left_binary_loop toks op_rule rhs_rule (fuel + 1) p (.success (some lt)) =
      left_binary_loop toks op_rule rhs_rule fuel r
        (.success (some ((opl.add_child lt).add_child rt))) := by
  simp only [left_binary_loop, hop, hrhs, is_giveup_success, Bool.false_eq_true,
    if_false, giveup_to_expected, add_state, add_node_not_elidable _ _ hlt,
    add_node_not_elidable _ _ hrt]

theorem left_binary_loop_stop (toks : List Token) (op_rule rhs_rule : ParserRule)
    (fuel : Nat) (p : TokenIterator) (s : ParserState)
    (hop : is_giveup (op_rule toks p).state = true) :
    left_binary_loop toks op_rule rhs_rule (fuel + 1) p s = ⟨p, s⟩ := by
  simp only [left_binary_loop, hop, if_true]

theorem parser_left_binary_operator_eq_loop (lhs_rule op_rule rhs_rule : ParserRule)
    (toks : List Token) (b : TokenIterator) (hb : ¬ b = toks.length)
    (lr : ParserResult) (hl : lhs_rule toks b = lr)
    (hg : is_giveup lr.state = false) :
    parser_left_binary_operator lhs_rule op_rule rhs_rule toks b =
      left_binary_loop toks op_rule rhs_rule (toks.length + 2)
        lr.next_token lr.state := by
  simp only [parser_left_binary_operator, if_neg hb, hl, hg, Bool.false_eq_true, if_false]

end CComp

namespace CComp

theorem should_elide_with_text (ty : NodeType) (tk : Token) (cs : List SyntaxTree)
    (h : ty ≠ NodeType.None) :
    should_elide (SyntaxTree.mk ty (some tk) false cs) = false := by
  simp only [should_elide, SyntaxTree.type, SyntaxTree.has_annotation, SyntaxTree.ann,
    SyntaxTree.has_text, SyntaxTree.token, SyntaxTree.child_count, SyntaxTree.children]
  split_ifs <;> simp_all

theorem not_elidable_of_text (ty : NodeType) (tk : Token) (cs : List SyntaxTree)
    (h : ty ≠ NodeType.None) :
    ¬ ((SyntaxTree.mk ty (some tk) false cs).type = NodeType.None ∨
       should_elide (SyntaxTree.mk ty (some tk) false cs)) := by
  rw [should_elide_with_text ty tk cs h]
  simp [SyntaxTree.type, h]

set_option maxHeartbeats 2000000 in
/-- C5.  For every left-associative binary-operator level — any operator node
type and operator token — `a OP b OP c` parses to `((a OP b) OP c)`: the
outer operator node's first child is the `(a OP b)` node; and for the
assignment level `a = b = c` parses to `(a = (b = c))`: the outer assignment
node's second child is the nested assignment. -/
theorem c5_binary_operator_associativity :
    (∀ (nt : NodeType) (opTk : TokenType), nt ≠ NodeType.None →
      opTk ≠ TokenType.Eof → ∀ (a o b c : String),
      parser_left_binary_operator parser_identifier
          (parser_operator nt (fun t => t.type == opTk)) parser_identifier
          [⟨TokenType.Identifier, a⟩, ⟨opTk, o⟩, ⟨TokenType.Identifier, b⟩,
           ⟨opTk, o⟩, ⟨TokenType.Identifier, c⟩, ⟨TokenType.Eof, ""⟩] 0 =
        ⟨5, .success (some (.mk nt (some ⟨opTk, o⟩) false
          [.mk nt (some ⟨opTk, o⟩) false
            [SyntaxTree.leaf NodeType.Identifier ⟨TokenType.Identifier, a⟩,
             SyntaxTree.leaf NodeType.Identifier ⟨TokenType.Identifier, b⟩],
           SyntaxTree.leaf NodeType.Identifier ⟨TokenType.Identifier, c⟩]))⟩) ∧
    (∀ (a b c : String),
      parser_assignment_expression parser_identifier parser_identifier 6
          [⟨TokenType.Identifier, a⟩, ⟨TokenType.Assign, "="⟩,
           ⟨TokenType.Identifier, b⟩, ⟨TokenType.Assign, "="⟩,
           ⟨TokenType.Identifier, c⟩, ⟨TokenType.Eof, ""⟩] 0 =
        ⟨5, .success (some (.mk NodeType.AssignmentExpression
          (some ⟨TokenType.Assign, "="⟩) false
          [SyntaxTree.leaf NodeType.Identifier ⟨TokenType.Identifier, a⟩,
           .mk NodeType.AssignmentExpression (some ⟨TokenType.Assign, "="⟩) false
            [SyntaxTree.leaf NodeType.Identifier ⟨TokenType.Identifier, b⟩,
             SyntaxTree.leaf NodeType.Identifier ⟨TokenType.Identifier, c⟩]]))⟩) := by
  constructor
  · intro nt opTk hnt hne a o b c
    have hbeq : (TokenType.Eof == opTk) = false := by
      simp [beq_iff_eq]
      exact Ne.symm hne
    have hop1 : parser_operator nt (fun t => t.type == opTk)
        [⟨TokenType.Identifier, a⟩, ⟨opTk, o⟩, ⟨TokenType.Identifier, b⟩,
         ⟨opTk, o⟩, ⟨TokenType.Identifier, c⟩, ⟨TokenType.Eof, ""⟩] 1 =
        ⟨2, .success (some (SyntaxTree.leaf nt ⟨opTk, o⟩))⟩ := by
      simp [parser_operator, tokenAt]
    have hop2 : parser_operator nt (fun t => t.type == opTk)
        [⟨TokenType.Identifier, a⟩, ⟨opTk, o⟩, ⟨TokenType.Identifier, b⟩,
         ⟨opTk, o⟩, ⟨TokenType.Identifier, c⟩, ⟨TokenType.Eof, ""⟩] 3 =
        ⟨4, .success (some (SyntaxTree.leaf nt ⟨opTk, o⟩))⟩ := by
      simp [parser_operator, tokenAt]
    have hop3 : is_giveup ((parser_operator nt (fun t => t.type == opTk)
        [⟨TokenType.Identifier, a⟩, ⟨opTk, o⟩, ⟨TokenType.Identifier, b⟩,
         ⟨opTk, o⟩, ⟨TokenType.Identifier, c⟩, ⟨TokenType.Eof, ""⟩] 5).state) = true := by
      simp [parser_operator, tokenAt, hbeq, is_giveup, make_error]
    have h1 := left_binary_loop_step _ _ parser_identifier 7 1 2 3
      (SyntaxTree.leaf nt ⟨opTk, o⟩)
      (SyntaxTree.leaf NodeType.Identifier ⟨TokenType.Identifier, a⟩)
      (SyntaxTree.leaf NodeType.Identifier ⟨TokenType.Identifier, b⟩)
      hop1 rfl
      (not_elidable_of_text _ _ _ (by simp))
      (not_elidable_of_text _ _ _ (by simp))
    have h2 := left_binary_loop_step _ _ parser_identifier 6 3 4 5
      (SyntaxTree.leaf nt ⟨opTk, o⟩)
      (.mk nt (some ⟨opTk, o⟩) false
        [SyntaxTree.leaf NodeType.Identifier ⟨TokenType.Identifier, a⟩,
         SyntaxTree.leaf NodeType.Identifier ⟨TokenType.Identifier, b⟩])
      (SyntaxTree.leaf NodeType.Identifier ⟨TokenType.Identifier, c⟩)
      hop2 rfl
      (not_elidable_of_text _ _ _ hnt)
      (not_elidable_of_text _ _ _ (by simp))
    have h3 := left_binary_loop_stop _
      (parser_operator nt (fun t => t.type == opTk)) parser_identifier 5 5
      (.success (some (.mk nt (some ⟨opTk, o⟩) false
        [.mk nt (some ⟨opTk, o⟩) false
          [SyntaxTree.leaf NodeType.Identifier ⟨TokenType.Identifier, a⟩,
           SyntaxTree.leaf NodeType.Identifier ⟨TokenType.Identifier, b⟩],
         SyntaxTree.leaf NodeType.Identifier ⟨TokenType.Identifier, c⟩])))
      hop3
    have hloop : left_binary_loop
        [⟨TokenType.Identifier, a⟩, ⟨opTk, o⟩, ⟨TokenType.Identifier, b⟩,
         ⟨opTk, o⟩, ⟨TokenType.Identifier, c⟩, ⟨TokenType.Eof, ""⟩]
        (parser_operator nt (fun t => t.type == opTk)) parser_identifier 8 1
        (.success (some (SyntaxTree.leaf NodeType.Identifier ⟨TokenType.Identifier, a⟩))) =
        ⟨5, .success (some (.mk nt (some ⟨opTk, o⟩) false
          [.mk nt (some ⟨opTk, o⟩) false
            [SyntaxTree.leaf NodeType.Identifier ⟨TokenType.Identifier, a⟩,
             SyntaxTree.leaf NodeType.Identifier ⟨TokenType.Identifier, b⟩],
           SyntaxTree.leaf NodeType.Identifier ⟨TokenType.Identifier, c⟩]))⟩ :=
      h1.trans (h2.trans h3)
    rw [parser_left_binary_operator_eq_loop parser_identifier
      (parser_operator nt (fun t => t.type == opTk)) parser_identifier
      [⟨TokenType.Identifier, a⟩, ⟨opTk, o⟩, ⟨TokenType.Identifier, b⟩,
       ⟨opTk, o⟩, ⟨TokenType.Identifier, c⟩, ⟨TokenType.Eof, ""⟩] 0
      (by simp)
      ⟨1, .success (some (SyntaxTree.leaf NodeType.Identifier ⟨TokenType.Identifier, a⟩))⟩
      rfl rfl]
    simpa using hloop
  · intro a b c
    rfl

end CComp

namespace CComp

theorem add_node_success_some (t n : SyntaxTree) :
    ∃ u, add_node (.success (some t)) n = .success (some u) := by
  simp only [add_node]
  split
  · exact ⟨_, rfl⟩
  · exact ⟨_, rfl⟩

/-- C8.  Inside `parser_left_binary_operator`'s fold, when the operator rule
matched (consuming its one token, from `p` to `q`) and the right-hand-side
rule then failed with a `GiveUp` carrying hint `m`, the iteration converts
that failure through `giveup_to_expected` into an Error
"expected expression for operator '<op>'" (with the note the non-empty hint
adds), and the loop continues at `q + 1` — one token past the operator's end
— unless `q` is already `end`. -/
theorem c8_left_binary_rhs_failure_recovery :
    ∀ (toks : List Token) (op_rule rhs_rule : ParserRule)
      (fuel p q r w : Nat) (opl lt : SyntaxTree) (m : String),
    op_rule toks p = ⟨q, .success (some opl)⟩ →
    rhs_rule toks q = ⟨r, .failure [⟨ParserStatus.GiveUp, w, m⟩]⟩ →
    m ≠ "" →
    left_binary_loop toks op_rule rhs_rule (fuel + 1) p (.success (some lt)) =
      left_binary_loop toks op_rule rhs_rule fuel
        (if q ≠ toks.length then q + 1 else q)
        (.failure
          [⟨ParserStatus.Error, w, "expected expression for operator '" ++
              string_ref (tokenAt toks p) ++ "'"⟩,
           ⟨ParserStatus.ErrorNote, w, m ++ " instead of this '" ++
              token_type_to_string (tokenAt toks w).type ++ "'"⟩]) := by
  intro toks op_rule rhs_rule fuel p q r w opl lt m hop hrhs hm
  obtain ⟨u, hu⟩ := add_node_success_some opl lt
  simp only [left_binary_loop, hop, hrhs, is_giveup_success, Bool.false_eq_true, if_false,
    giveup_to_expected, add_state, hu, add_error_state, add_error_list, List.foldl,
    add_error, hm, ne_eq, not_false_eq_true, if_true, List.nil_append,
    List.cons_append]
  split
  · rfl
  · rfl

/-- Witness for C8: the recovery step at the concrete stream `a + )` — the
operator at index 1 matches, the right-hand side gives up at index 2, the
failure becomes "expected expression for operator '+'" and the loop resumes
at index 3. -/
theorem c8_witness :
    left_binary_loop
        [⟨TokenType.Identifier, "a"⟩, ⟨TokenType.Plus, "+"⟩,
         ⟨TokenType.RightParen, ")"⟩, ⟨TokenType.Eof, ""⟩]
        (parser_operator NodeType.AdditiveExpression (fun t => t.type == TokenType.Plus))
        parser_identifier 3 1
        (.success (some (SyntaxTree.leaf NodeType.Identifier ⟨TokenType.Identifier, "a"⟩))) =
      left_binary_loop
        [⟨TokenType.Identifier, "a"⟩, ⟨TokenType.Plus, "+"⟩,
         ⟨TokenType.RightParen, ")"⟩, ⟨TokenType.Eof, ""⟩]
        (parser_operator NodeType.AdditiveExpression (fun t => t.type == TokenType.Plus))
        parser_identifier 2
        (if (2 : Nat) ≠ 4 then 3 else 2)
        (.failure
          [⟨ParserStatus.Error, 2, "expected expression for operator '" ++
              string_ref (tokenAt [⟨TokenType.Identifier, "a"⟩, ⟨TokenType.Plus, "+"⟩,
                ⟨TokenType.RightParen, ")"⟩, ⟨TokenType.Eof, ""⟩] 1) ++ "'"⟩,
           ⟨ParserStatus.ErrorNote, 2, "identifier" ++ " instead of this '" ++
              token_type_to_string (tokenAt [⟨TokenType.Identifier, "a"⟩,
                ⟨TokenType.Plus, "+"⟩, ⟨TokenType.RightParen, ")"⟩,
                ⟨TokenType.Eof, ""⟩] 2).type ++ "'"⟩]) :=
  c8_left_binary_rhs_failure_recovery _ _ _ 2 1 2 4 2
    (SyntaxTree.leaf NodeType.AdditiveExpression ⟨TokenType.Plus, "+"⟩)
    (SyntaxTree.leaf NodeType.Identifier ⟨TokenType.Identifier, "a"⟩)
    "identifier" rfl rfl (by decide)

end CComp

namespace CComp

/-- C1, counterexample.  On the stream `[Eof, Eof]` (an `Eof` not in final
position) the compilation-unit parse terminates but reports next iterator 1,
not `tokens.end() = 2` — the claim's unqualified "for every token stream"
fails. -/
theorem c1_counterexample :
    (parser_compilation_unit parser_identifier parser_identifier
        [⟨TokenType.Eof, ""⟩, ⟨TokenType.Eof, ""⟩] 0).map ParserResult.next_token =
      some 1 ∧
    ([⟨TokenType.Eof, ""⟩, ⟨TokenType.Eof, ""⟩] : List Token).length = 2 :=
  ⟨rfl, rfl⟩

theorem compilation_unit_loop_reaches_end (toks : List Token) (fd dcl : ParserRule)
    (hEof : ∀ i, i + 1 < toks.length → (tokenAt toks i).type ≠ TokenType.Eof)
    (hprog : ∀ i, i < toks.length →
      i < (parser_one_of toks "external declaration" [fd, dcl] i).next_token ∧
      (parser_one_of toks "external declaration" [fd, dcl] i).next_token ≤ toks.length) :
    ∀ (fuel it : Nat), it ≤ toks.length → toks.length - it < fuel →
      ∀ state, ∃ st, compilation_unit_loop toks fd dcl fuel it state =
        some (toks.length, st) := by
  intro fuel
  induction fuel with
  | zero => intro it h1 h2; exact absurd h2 (by omega)
  | succ fuel ih =>
    intro it hle hfuel state
    by_cases hit : it = toks.length
    · exact ⟨state, by simp [compilation_unit_loop, hit]⟩
    · have hlt : it < toks.length := lt_of_le_of_ne hle hit
      by_cases hE : (tokenAt toks it).type = TokenType.Eof
      · have hone : it + 1 = toks.length := by
          rcases Nat.lt_or_ge (it + 1) toks.length with h | h
          · exact absurd hE (hEof it h)
          · omega
        exact ⟨state, by simp [compilation_unit_loop, hit, hE, hone]⟩
      · by_cases hS : (tokenAt toks it).type = TokenType.Semicolon
        · obtain ⟨st, hst⟩ := ih (it + 1) (by omega) (by omega) state
          exact ⟨st, by simp [compilation_unit_loop, hit, hE, hS, hst]⟩
        · obtain ⟨hp1, hp2⟩ := hprog it hlt
          obtain ⟨st, hst⟩ := ih
            (parser_one_of toks "external declaration" [fd, dcl] it).next_token
            hp2 (by omega)
            (add_state state (giveup_to_expected_default
              (parser_one_of toks "external declaration" [fd, dcl] it).state))
          exact ⟨st, by simp [compilation_unit_loop, hit, hE, hS, hst]⟩

/-- C1, amended.  For every token stream in which an `Eof` token occurs only
in final position, and under the (grammar-supplied) guarantee that the
external-declaration alternation strictly advances the iterator and never
moves past `end`, the compilation-unit parse terminates with its reported
next iterator equal to `tokens.end()`, and so `parse` terminates with that
iterator satisfying the `Ensures(it == tokens.end())` contract. -/
theorem c1_parse_iterator_reaches_end :
    ∀ (toks : List Token) (fd dcl : ParserRule),
    (∀ i, i + 1 < toks.length → (tokenAt toks i).type ≠ TokenType.Eof) →
    (∀ i, i < toks.length →
      i < (parser_one_of toks "external declaration" [fd, dcl] i).next_token ∧
      (parser_one_of toks "external declaration" [fd, dcl] i).next_token ≤ toks.length) →
    (∃ st, parser_compilation_unit fd dcl toks 0 = some ⟨toks.length, st⟩) ∧
    ∃ res, parse fd dcl toks = some res ∧ res.1 = toks.length := by
  intro toks fd dcl hEof hprog
  have hcu : ∃ st, parser_compilation_unit fd dcl toks 0 = some ⟨toks.length, st⟩ := by
    by_cases h0 : 0 = toks.length
    · refine ⟨make_error ParserStatus.GiveUp 0 "compilation unit", ?_⟩
      simp [parser_compilation_unit, h0]
    · by_cases hE : (tokenAt toks 0).type = TokenType.Eof
      · have hone : 0 + 1 = toks.length := by
          rcases Nat.lt_or_ge (0 + 1) toks.length with h | h
          · exact absurd hE (hEof 0 h)
          · omega
        refine ⟨.success (some (SyntaxTree.node NodeType.CompilationUnit)), ?_⟩
        simp [parser_compilation_unit, h0, hE, ← hone]
      · obtain ⟨st, hst⟩ := compilation_unit_loop_reaches_end toks fd dcl hEof hprog
          (toks.length + 2) 0 (by omega) (by omega)
          (.success (some (SyntaxTree.node NodeType.CompilationUnit)))
        exact ⟨st, by simp [parser_compilation_unit, h0, hE, hst]⟩
  obtain ⟨st, hst⟩ := hcu
  refine ⟨⟨st, hst⟩, ?_⟩
  cases hgp : giveup_to_expected_default st with
  | success t =>
    exact ⟨(toks.length, t, []), by simp [parse, hst, hgp], rfl⟩
  | failure es =>
    exact ⟨(toks.length, none, emit_diagnostics toks es), by simp [parse, hst, hgp], rfl⟩

/-- Witness for C1: the amended theorem at the one-token stream `[Eof]` with
both external-declaration rules instantiated by `parser_identifier`. -/
theorem c1_witness :
    (∃ st, parser_compilation_unit parser_identifier parser_identifier
      [⟨TokenType.Eof, ""⟩] 0 =
        some ⟨([⟨TokenType.Eof, ""⟩] : List Token).length, st⟩) ∧
    ∃ res, parse parser_identifier parser_identifier [⟨TokenType.Eof, ""⟩] =
      some res ∧ res.1 = ([⟨TokenType.Eof, ""⟩] : List Token).length :=
  c1_parse_iterator_reaches_end [⟨TokenType.Eof, ""⟩] parser_identifier parser_identifier
    (by
      intro i h
      rw [List.length_singleton] at h
      omega)
    (by
      intro i h
      rw [List.length_singleton] at h
      have hi : i = 0 := by omega
      subst hi
      exact ⟨by decide, by decide⟩)

end CComp

namespace CComp

/-- C4, counterexample.  On the empty token stream the promoted final state
is a `Failure` holding one `Error` entry, yet `parse` returns null and emits
no diagnostic at all: the entry's iterator equals `tokens.end()` and the
emission loop skips it — the claim's "emits every Error entry" fails. -/
theorem c4_counterexample :
    parser_compilation_unit parser_identifier parser_identifier [] 0 =
      some ⟨0, make_error ParserStatus.GiveUp 0 "compilation unit"⟩ ∧
    giveup_to_expected_default (make_error ParserStatus.GiveUp 0 "compilation unit") =
      .failure [⟨ParserStatus.Error, 0, "expected compilation unit"⟩] ∧
    parse parser_identifier parser_identifier [] = some (0, none, []) :=
  ⟨rfl, rfl, rfl⟩

theorem emit_diagnostics_eq_filter_map (toks : List Token) (es : List ParserError) :
    emit_diagnostics toks es =
      (es.filter (fun e => e.where_ != toks.length)).map
        (fun e => ⟨if e.status = ParserStatus.ErrorNote then DiagnosticKind.note
          else DiagnosticKind.error, e.where_, e.error⟩) := by
  induction es with
  | nil => rfl
  | cons e es ih =>
    by_cases h : e.where_ = toks.length
    · simp [emit_diagnostics, List.filterMap_cons, List.filter_cons, h] at ih ⊢
      exact ih
    · simp [emit_diagnostics, List.filterMap_cons, List.filter_cons, h] at ih ⊢
      exact ih

/-- C4, amended.  If the promoted final state is a `Success`, `parse` returns
the owned tree; if it is a `Failure`, `parse` returns null and emits, in list
order, every entry *whose stored iterator is not `tokens.end()`* — an `Error`
as an error diagnostic, an `ErrorNote` as a note, located at the entry's
stored iterator (resolved through the source manager); entries stored at
`tokens.end()` are silently dropped. -/
theorem c4_parse_returns_and_emits :
    ∀ (fd dcl : ParserRule) (toks : List Token) (r : ParserResult),
    parser_compilation_unit fd dcl toks 0 = some r →
    (∀ t, giveup_to_expected_default r.state = .success t →
      parse fd dcl toks = some (r.next_token, t, [])) ∧
    (∀ es, giveup_to_expected_default r.state = .failure es →
      parse fd dcl toks = some (r.next_token, none,
        (es.filter (fun e => e.where_ != toks.length)).map
          (fun e => ⟨if e.status = ParserStatus.ErrorNote then DiagnosticKind.note
            else DiagnosticKind.error, e.where_, e.error⟩))) := by
  intro fd dcl toks r hr
  constructor
  · intro t hgp
    simp [parse, hr, hgp]
  · intro es hgp
    simp [parse, hr, hgp, emit_diagnostics_eq_filter_map]

/-- Witness for C4: the success half applied at the one-token stream `[Eof]`,
whose compilation unit parses to the bare `CompilationUnit` node. -/
theorem c4_witness :
    parse parser_identifier parser_identifier [⟨TokenType.Eof, ""⟩] =
      some (1, some (SyntaxTree.node NodeType.CompilationUnit), []) :=
  (c4_parse_returns_and_emits parser_identifier parser_identifier [⟨TokenType.Eof, ""⟩]
    ⟨1, .success (some (SyntaxTree.node NodeType.CompilationUnit))⟩ rfl).1
    (some (SyntaxTree.node NodeType.CompilationUnit)) rfl

end CComp

namespace CComp

theorem add_error_list_failure (l1 l2 : List ParserError) :
    add_error_list (.failure l1) l2 = .failure (l1 ++ l2) := by
  induction l2 generalizing l1 with
  | nil => simp [add_error_list]
  | cons e es ih =>
    simp only [add_error_list, List.foldl, add_error] at ih ⊢
    rw [ih, List.append_assoc]
    rfl

theorem add_error_list_success_cons (t : Option SyntaxTree) (e : ParserError)
    (l : List ParserError) :
    add_error_list (.success t) (e :: l) = .failure (e :: l) := by
  simp only [add_error_list, List.foldl, add_error]
  have := add_error_list_failure [e] l
  simp only [add_error_list] at this
  simpa using this

theorem add_state_success_none (st : ParserState) :
    add_state st (.success none) = st := rfl

theorem add_state_fc_arg (fc : Token) (argnode : SyntaxTree) :
    ∀ (cs : List SyntaxTree), argnode = .mk NodeType.ArgumentExpressionList none false cs →
    add_state (.success (some (SyntaxTree.leaf NodeType.FunctionCall fc)))
        (.success (some argnode)) =
      .success (some (.mk NodeType.FunctionCall (some fc) false [argnode])) := by
  intro cs h
  subst h
  rfl

theorem arguments_absorb (g' : SyntaxTree) :
    ∃ cs, add_node (.success (some (SyntaxTree.node NodeType.ArgumentExpressionList))) g' =
      .success (some (.mk NodeType.ArgumentExpressionList none false cs)) := by
  simp only [add_node]
  split
  · exact ⟨g'.children, rfl⟩
  · exact ⟨[g'], rfl⟩

set_option maxHeartbeats 2000000 in
/-- C10.  An empty call `f()` produces a `FunctionCall` node whose only child
is the callee — no `ArgumentExpressionList` child is created — while the
function-call production with a non-empty interior, whenever it succeeds,
hands back a `FunctionCall` node whose single child (before the fold appends
the callee) is an `ArgumentExpressionList` node; concretely `f(a)` yields
`FunctionCall[ArgumentExpressionList[a], f]`. -/
theorem c10_function_call_argument_list :
    (∀ (tn il er ar : ParserRule) (f : String),
      parser_postfix_expression tn il er ar parser_identifier
        [⟨TokenType.Identifier, f⟩, ⟨TokenType.LeftParen, "("⟩,
         ⟨TokenType.RightParen, ")"⟩, ⟨TokenType.Eof, ""⟩] 0 =
        ⟨3, .success (some (.mk NodeType.FunctionCall (some ⟨TokenType.LeftParen, "("⟩) false
          [SyntaxTree.leaf NodeType.Identifier ⟨TokenType.Identifier, f⟩]))⟩) ∧
    (∀ (er ar : ParserRule) (toks : List Token) (b : TokenIterator) (t : SyntaxTree),
      b < toks.length → (tokenAt toks b).type = TokenType.LeftParen →
      ¬ (b + 1 ≠ toks.length ∧ (tokenAt toks (b + 1)).type = TokenType.RightParen) →
      (postfix_production er ar toks b).state = .success (some t) →
      t.type = NodeType.FunctionCall ∧
        t.children.map SyntaxTree.type = [NodeType.ArgumentExpressionList]) ∧
    (∀ (tn il er : ParserRule) (f a : String),
      parser_postfix_expression tn il er parser_identifier parser_identifier
        [⟨TokenType.Identifier, f⟩, ⟨TokenType.LeftParen, "("⟩,
         ⟨TokenType.Identifier, a⟩, ⟨TokenType.RightParen, ")"⟩, ⟨TokenType.Eof, ""⟩] 0 =
        ⟨4, .success (some (.mk NodeType.FunctionCall (some ⟨TokenType.LeftParen, "("⟩) false
          [.mk NodeType.ArgumentExpressionList none false
            [SyntaxTree.leaf NodeType.Identifier ⟨TokenType.Identifier, a⟩],
           SyntaxTree.leaf NodeType.Identifier ⟨TokenType.Identifier, f⟩]))⟩) := by
  refine ⟨fun tn il er ar f => rfl, ?_, fun tn il er f a => rfl⟩
  intro er ar toks b t hb hlp hnot hsucc
  have hne : ¬ b = toks.length := Nat.ne_of_lt hb
  simp only [postfix_production, if_neg hne, hlp, if_neg hnot] at hsucc
  cases hg : giveup_to_expected toks
      (parser_parens (parser_list_of ar false) TokenType.LeftParen TokenType.RightParen
        toks b).state "argument list" with
  | success t' =>
    rw [hg] at hsucc
    cases t' with
    | none =>
      rw [add_state_success_none, add_state_fc_arg (tokenAt toks b)
        (SyntaxTree.node NodeType.ArgumentExpressionList) [] rfl] at hsucc
      cases hsucc
      exact ⟨rfl, rfl⟩
    | some g' =>
      obtain ⟨cs, hcs⟩ := arguments_absorb g'
      rw [show add_state (ParserState.success
            (some (SyntaxTree.node NodeType.ArgumentExpressionList)))
            (ParserState.success (some g')) =
          add_node (ParserState.success
            (some (SyntaxTree.node NodeType.ArgumentExpressionList))) g' from rfl,
        hcs, add_state_fc_arg (tokenAt toks b) _ cs rfl] at hsucc
      cases hsucc
      exact ⟨rfl, rfl⟩
  | failure l =>
    rw [hg] at hsucc
    cases l with
    | nil =>
      rw [show add_state (ParserState.success
            (some (SyntaxTree.node NodeType.ArgumentExpressionList)))
            (ParserState.failure []) =
          ParserState.success (some (SyntaxTree.node NodeType.ArgumentExpressionList))
          from rfl,
        add_state_fc_arg (tokenAt toks b)
          (SyntaxTree.node NodeType.ArgumentExpressionList) [] rfl] at hsucc
      cases hsucc
      exact ⟨rfl, rfl⟩
    | cons e l =>
      rw [show add_state (ParserState.success
            (some (SyntaxTree.node NodeType.ArgumentExpressionList)))
            (ParserState.failure (e :: l)) =
          add_error_list (ParserState.success
            (some (SyntaxTree.node NodeType.ArgumentExpressionList))) (e :: l)
          from rfl,
        add_error_list_success_cons] at hsucc
      rw [show add_state (ParserState.success
            (some (SyntaxTree.leaf NodeType.FunctionCall (tokenAt toks b))))
            (ParserState.failure (e :: l)) =
          add_error_list (ParserState.success
            (some (SyntaxTree.leaf NodeType.FunctionCall (tokenAt toks b)))) (e :: l)
          from rfl,
        add_error_list_success_cons] at hsucc
      cases hsucc

/-- Witness for C10: the non-empty-argument half applied at the concrete
stream `f ( a )` from index 1. -/
theorem c10_witness :
    (SyntaxTree.mk NodeType.FunctionCall (some ⟨TokenType.LeftParen, "("⟩) false
      [SyntaxTree.mk NodeType.ArgumentExpressionList none false
        [SyntaxTree.leaf NodeType.Identifier ⟨TokenType.Identifier, "a"⟩]]).type =
      NodeType.FunctionCall ∧
    (SyntaxTree.mk NodeType.FunctionCall (some ⟨TokenType.LeftParen, "("⟩) false
      [SyntaxTree.mk NodeType.ArgumentExpressionList none false
        [SyntaxTree.leaf NodeType.Identifier ⟨TokenType.Identifier, "a"⟩]]).children.map
      SyntaxTree.type = [NodeType.ArgumentExpressionList] :=
  c10_function_call_argument_list.2.1 parser_identifier parser_identifier
    [⟨TokenType.Identifier, "f"⟩, ⟨TokenType.LeftParen, "("⟩,
     ⟨TokenType.Identifier, "a"⟩, ⟨TokenType.RightParen, ")"⟩, ⟨TokenType.Eof, ""⟩]
    1 _ (by decide) (by decide) (by decide) rfl

end CComp

namespace CComp

/-- Witness for C5: the left-associative half applied at the additive level
(`a + b + c` with `+` tokens). -/
theorem c5_witness :
    parser_left_binary_operator parser_identifier
        (parser_operator NodeType.AdditiveExpression (fun t => t.type == TokenType.Plus))
        parser_identifier
        [⟨TokenType.Identifier, "a"⟩, ⟨TokenType.Plus, "+"⟩, ⟨TokenType.Identifier, "b"⟩,
         ⟨TokenType.Plus, "+"⟩, ⟨TokenType.Identifier, "c"⟩, ⟨TokenType.Eof, ""⟩] 0 =
      ⟨5, .success (some (.mk NodeType.AdditiveExpression (some ⟨TokenType.Plus, "+"⟩) false
        [.mk NodeType.AdditiveExpression (some ⟨TokenType.Plus, "+"⟩) false
          [SyntaxTree.leaf NodeType.Identifier ⟨TokenType.Identifier, "a"⟩,
           SyntaxTree.leaf NodeType.Identifier ⟨TokenType.Identifier, "b"⟩],
         SyntaxTree.leaf NodeType.Identifier ⟨TokenType.Identifier, "c"⟩]))⟩ :=
  c5_binary_operator_associativity.1 NodeType.AdditiveExpression TokenType.Plus
    (by decide) (by decide) "a" "+" "b" "c"

end CComp
